import Mathlib

/-!
Shallow embedding of the code4rena-scraper pipeline (src/main.rs) and proofs
about its behaviour.  External effects (HTTP, the filesystem, the clock, the
Solidity compiler, RFC3339 parsing by chrono) are modelled as explicit
parameters; a Rust panic is modelled as the `none` case of an `Option` result.
Rust string primitives (`split`, `trim`, `lines`, `ends_with`, path handling)
are modelled as structurally recursive functions on `List Char` so that all
definitions compute by kernel reduction.
-/

namespace Code4rena

/-- Model of Rust whitespace trimming: the whitespace characters that occur in
remapping files (space, tab, CR, LF).  `str::trim` strips Unicode whitespace;
on the ASCII inputs handled here the two agree. -/
def isWs (c : Char) : Bool :=
  c = ' ' || c = '\t' || c = '\r' || c = '\n'

/-- Rust `str::split(sep)`: splitting an empty string yields one empty piece,
exactly as `"".split('=')` yields `[""]`. -/
def rsplitList (sep : Char) : List Char → List (List Char)
  | [] => [[]]
  | c :: cs =>
    let r := rsplitList sep cs
    if c = sep then
      [] :: r
    else
      match r with
      | [] => [[c]]
      | g :: gs => (c :: g) :: gs

/-- Rust `str::trim` on a character list. -/
def trimList (l : List Char) : List Char :=
  ((l.dropWhile isWs).reverse.dropWhile isWs).reverse

/-- Rust `str::lines`: split on LF, drop a final empty piece produced by a
trailing terminator, and strip a trailing CR from each line. -/
def rlines (l : List Char) : List (List Char) :=
  let parts := rsplitList '\n' l
  let parts := if parts.getLast? = some [] then parts.dropLast else parts
  parts.map (fun p => if p.getLast? = some '\r' then p.dropLast else p)

/-- Rust `str::ends_with` on character lists. -/
def endsList (suffix l : List Char) : Bool :=
  decide (suffix <:+ l)

def strOf (l : List Char) : String :=
  String.mk l

/-- Rust `Path::parent` rendered as a string: everything before the last
path-separator.  (`Path::parent` of a path with no separator is modelled by
the empty result; the pipeline only calls it on `<dir>/remappings.txt`.) -/
def parentDir (p : List Char) : List Char :=
  List.intercalate ['/'] ((rsplitList '/' p).dropLast)

/-- Rust `Path::file_name` (followed by `unwrap_or(&path)`): the last
separator-delimited segment, falling back to the whole path where
`Path::file_name` yields `None` (empty last segment or a `..` component). -/
def fileNameList (p : List Char) : List Char :=
  match (rsplitList '/' p).getLast? with
  | some last => if last.isEmpty || last = ['.', '.'] then p else last
  | none => p

/-- Deserialized `SponsorData` record (src/main.rs, lines 60-71). -/
structure SponsorData where
  created_at : Option String
  image : Option String
  imageUrl : Option String
  link : Option String
  name : Option String
  uid : Option String
  updated_at : Option String
deriving DecidableEq

/-- Deserialized `Contest` record (src/main.rs, lines 27-58).  `u32`/`u64`
fields become `Nat`. -/
structure Contest where
  amount : Option String
  audit_type : Option String
  award_coin : Option String
  codeAccess : Option String
  code_access : Option String
  contest_id : Option Nat
  contestid : Option Nat
  details : Option String
  end_time : Option String
  findingsRepo : Option String
  findings_repo : Option String
  formatted_amount : Option String
  gas_award_pool : Option Nat
  hide : Option Bool
  hm_award_pool : Option Nat
  league : Option String
  qa_award_pool : Option Nat
  repo : Option String
  slug : Option String
  sponsor : Option String
  sponsor_data : SponsorData
  start_time : Option String
  status : Option String
  title : Option String
  total_award_pool : Option Nat
  type : Option String
  uid : Option String
deriving DecidableEq

/-- A `SponsorData` with every field absent, for building concrete records. -/
def sponsor0 : SponsorData :=
  ⟨none, none, none, none, none, none, none⟩

/-- A `Contest` with every field absent, for building concrete records. -/
def contest0 : Contest :=
  ⟨none, none, none, none, none, none, none, none, none, none, none, none,
   none, none, none, none, none, none, none, none, sponsor0, none, none,
   none, none, none, none⟩

/-- Model of `is_active_and_public` (src/main.rs, lines 131-137).  `parse` models
`chrono::DateTime::parse_from_rfc3339` (an external library: `none` is a
`ParseError`), `now` the `Utc::now()` instant sampled inside the function;
instants are compared as integers.  The result `none` models a panic:
`contest.end_time.as_ref().unwrap()` and
`contest.code_access.as_ref().unwrap()` panic on an absent field — the
second unwrap is reached only when `end_time > current_time`, because `&&`
short-circuits.  `some (.error ())` models the `ParseError` propagated by
`?`; `some (.ok b)` the returned `Ok(b)`. -/
def is_active_and_public (parse : String → Option Int) (now : Int)
    (contest : Contest) : Option (Except Unit Bool) :=
  match contest.end_time with
  | none => none
  | some s =>
    match parse s with
    | none => some (.error ())
    | some end_t =>
      if now < end_t then
        match contest.code_access with
        | none => none
        | some ca => some (.ok (ca = "public"))
      else
        some (.ok false)

/-- The per-record filter step of `get_active_contests` (src/main.rs, line
120): `is_active_and_public(contest).unwrap_or(false)`.  `none` still models
a panic escaping the closure. -/
def filter_keep (parse : String → Option Int) (now : Int)
    (contest : Contest) : Option Bool :=
  (is_active_and_public parse now contest).map
    (fun r => match r with | .ok b => b | .error _ => false)

/-- The filtering pass of `get_active_contests` (src/main.rs, lines 115-121)
over already-deserialized records.  `Utc::now()` is called inside
`is_active_and_public`, hence once per record: `clock i` is the instant
returned by the i-th call.  `none` models a panic aborting the pass. -/
def get_active_contests (parse : String → Option Int) (clock : Nat → Int) :
    Nat → List Contest → Option (List Contest)
  | _, [] => some []
  | i, c :: cs =>
    match filter_keep parse (clock i) c with
    | none => none
    | some b =>
      (get_active_contests parse clock (i + 1) cs).map
        (fun rest => if b then c :: rest else rest)

/-- The filtering pass as the specification describes it: a single `now`
instant captured once per pass and used for every record. -/
def get_active_contests_spec (parse : String → Option Int) (now : Int) :
    List Contest → Option (List Contest)
  | [] => some []
  | c :: cs =>
    match filter_keep parse now c with
    | none => none
    | some b =>
      (get_active_contests_spec parse now cs).map
        (fun rest => if b then c :: rest else rest)

/-- Model of `ethers_solc::remappings::Remapping`: an import-alias pair. -/
structure Remapping where
  name : String
  path : String
deriving DecidableEq

/-- One iteration of the line loop of `read_remappings_file` (src/main.rs,
lines 281-291): trim the line, split on every `'='`, and only when the split
yields exactly two parts build a `Remapping` whose path is the containing
directory, a `"/"`, and the trimmed right-hand side. -/
def remap_line (dir : List Char) (line : List Char) : Option Remapping :=
  match rsplitList '=' (trimList line) with
  | [a, b] => some ⟨strOf (trimList a), strOf (dir ++ '/' :: trimList b)⟩
  | _ => none

/-- The parsing part of `read_remappings_file` (src/main.rs, lines 272-293),
applied to the file's path and its text contents. -/
def parse_remappings (file_path contents : String) : List Remapping :=
  (rlines contents.toList).filterMap (remap_line (parentDir file_path.toList))

/-- Model of `read_remappings_file` (src/main.rs, lines 268-294).  `fs` models the
filesystem (`std::fs::read_to_string`: `none` is a read error); the function
calls `.expect(...)` on the read, so an unreadable file is a panic, modelled
by the result `none`. -/
def read_remappings_file (fs : String → Option String) (file_path : String) :
    Option (List Remapping) :=
  match fs file_path with
  | none => none
  | some contents => some (parse_remappings file_path contents)

/-- Deserialized `GitHubTreeEntry` (src/main.rs, lines 73-78). -/
structure GitHubTreeEntry where
  path : String
  type : String
  url : String
deriving DecidableEq

/-- The filter-and-map part of `get_contracts_urls` (src/main.rs, lines
168-182), applied to an already-fetched tree: keep `blob` entries whose path
ends with `.sol`, and map each to `(url, file_name)` where `file_name` is the
last path segment (`Path::file_name`, with the whole path as fallback). -/
def get_contracts_urls (tree : List GitHubTreeEntry) : List (String × String) :=
  (tree.filter
      (fun e => e.type = "blob" && endsList ".sol".toList e.path.toList)).map
    (fun e => (e.url, strOf (fileNameList e.path.toList)))

/-- A JSON value as far as `get_default_branch` inspects it: a string or
anything else. -/
inductive JVal where
  | jstr (s : String)
  | jother
deriving DecidableEq

/-- Field lookup on a JSON object (`serde_json::Value::get`). -/
def lookupField (fields : List (String × JVal)) (key : String) : Option JVal :=
  match fields with
  | [] => none
  | (k, v) :: rest => if k = key then some v else lookupField rest key

/-- The HTTP response of the repository-metadata request, as far as
`get_default_branch` inspects it: the success flag of the status code and the
body parsed as a JSON object (`none`: the body is not valid JSON). -/
structure HttpResponse where
  success : Bool
  body : Option (List (String × JVal))
deriving DecidableEq

/-- Outcome of `client.get(url)....send()`: a transport failure or a
response. -/
inductive SendResult where
  | failed
  | got (r : HttpResponse)
deriving DecidableEq

/-- The error values `get_default_branch` can return: the literal
`"Default branch not found"` error, or the JSON-decode error propagated by
`response.json()?`. -/
inductive BranchErr where
  | notFound
  | jsonDecode
deriving DecidableEq

/-- Model of `get_default_branch` (src/main.rs, lines 188-216) as a function of the
send outcome.  A transport failure is `map_err`-ed to `()` (after logging)
and then `.unwrap()`-ed — a panic, modelled by `none`.  On a success status
the body is parsed (`?` propagates a decode error) and the string value of
`default_branch` is returned; every other path reaches
`Err("Default branch not found")`. -/
def get_default_branch (s : SendResult) : Option (Except BranchErr String) :=
  match s with
  | .failed => none
  | .got r =>
    if r.success then
      match r.body with
      | none => some (.error .jsonDecode)
      | some fields =>
        match lookupField fields "default_branch" with
        | some (.jstr b) => some (.ok b)
        | _ => some (.error .notFound)
    else
      some (.error .notFound)

/-- Model of `ethers_solc::artifacts::BytecodeObject`: concrete bytes (`u8`, modelled
as `Nat < 256`) or an unlinked placeholder string. -/
inductive BytecodeObject where
  | bytecode (bytes : List Nat)
  | unlinked (code : String)
deriving DecidableEq

/-- The `bytecode` field of an artifact's `evm` section, as far as
`get_contracts_bytecodes` inspects it. -/
structure EvmBytecode where
  object : BytecodeObject
deriving DecidableEq

/-- The `evm` section of an artifact. -/
structure EvmSection where
  bytecode : Option EvmBytecode
deriving DecidableEq

/-- Model of `ethers_solc::artifacts::Contract`, as far as `get_contracts_bytecodes`
inspects it. -/
structure ContractArtifact where
  evm : Option EvmSection
deriving DecidableEq

/-- Model of `ethers_solc::artifacts::Contracts`: filename → contract name → artifact.
The nested `BTreeMap`s are modelled as association lists in iteration
order. -/
def Contracts := List (String × List (String × ContractArtifact))

/-- Association-list lookup, modelling `BTreeMap::get`. -/
def lookupA {α : Type} (m : List (String × α)) (key : String) : Option α :=
  match m with
  | [] => none
  | (k, v) :: rest => if k = key then some v else lookupA rest key

/-- Lowercase hex digit, as produced by `hex::encode`. -/
def hexDigitChar (n : Nat) : Char :=
  if n < 10 then Char.ofNat (48 + n) else Char.ofNat (87 + n)

/-- Model of `hex::encode` on a byte list: two lowercase hex digits per byte. -/
def hexEncode (bytes : List Nat) : String :=
  strOf (bytes.flatMap (fun b => [hexDigitChar (b / 16 % 16), hexDigitChar (b % 16)]))

/-- The closure of the `filter_map` in `get_contracts_bytecodes`
(src/main.rs, lines 244-257): a pair for a concrete bytecode object, nothing
for a missing `evm`/`bytecode` or an unlinked placeholder. -/
def bytecode_pair (contract_name : String) (c : ContractArtifact) :
    Option (String × String) :=
  c.evm.bind fun evm =>
    evm.bytecode.bind fun b =>
      match b.object with
      | .bytecode bytes => some (contract_name, hexEncode bytes)
      | .unlinked _ => none

/-- Model of `get_contracts_bytecodes` (src/main.rs, lines 238-266): look up the
filename, collect the concrete-bytecode pairs, return them only when
non-empty; both an absent filename and an empty collection fall through to
`None`. -/
def get_contracts_bytecodes (contracts : Contracts) (filename : String) :
    Option (List (String × String)) :=
  match lookupA contracts filename with
  | some file_contracts =>
    let bytecodes := file_contracts.filterMap (fun p => bytecode_pair p.1 p.2)
    if bytecodes.isEmpty then none else some bytecodes
  | none => none

/-- Bytecode extraction as the specification words it: the list of
`(name, hex bytecode)` pairs of the contracts under the filename whose
bytecode is concrete (an absent filename contributing no contracts), with an
explicit `none` when that list is empty. -/
def get_contracts_bytecodes_spec (contracts : Contracts) (filename : String) :
    Option (List (String × String)) :=
  let pairs := ((lookupA contracts filename).getD []).filterMap
    (fun p => bytecode_pair p.1 p.2)
  if pairs.isEmpty then none else some pairs

/-- Reasons `compile_contracts_from_repo` can return `Err`: the
`CompilerInput::new(contracts_path)?` on the compile root, or the
`solc.compile(&input)?` invocation itself. -/
inductive CompileErr where
  | inputErr
  | solcErr
deriving DecidableEq

/-- Model of `compile_contracts_from_repo` (src/main.rs, lines 302-316) as a function
of its external effects.  `input_ok` models whether
`CompilerInput::new(contracts_path)` succeeds (it runs first and its error
returns via `?`); only then is `read_remappings_file` invoked — its panic on
an unreadable file propagates (`none`).  `solc_ok` models whether
`solc.compile` succeeds; the compiler itself is a black box, so a successful
compile is recorded as the remapping list that was attached to the input. -/
def compile_contracts_from_repo (fs : String → Option String)
    (input_ok solc_ok : Bool) (remappings_path : String) :
    Option (Except CompileErr (List Remapping)) :=
  if input_ok then
    match read_remappings_file fs remappings_path with
    | none => none
    | some rs => if solc_ok then some (.ok rs) else some (.error .solcErr)
  else
    some (.error .inputErr)

/-- Outcome of `std::panic::catch_unwind(|| clone_repo(...))` in `main`
(src/main.rs, lines 334-336): `Ok(Ok(()))`, `Ok(Err(_))`, or `Err(_)` (a
caught panic). -/
inductive CloneOutcome where
  | cloned
  | cloneErr
  | panicked
deriving DecidableEq

/-- The external conditions one iteration of the `main` loop (src/main.rs,
lines 326-365) meets for one contest: whether the local clone directory
already exists, the clone outcome when attempted, the `CompilerInput` and
`solc` outcomes, and the filesystem contents seen by
`read_remappings_file`. -/
structure ContestEnv where
  path_exists : Bool
  clone : CloneOutcome
  input_ok : Bool
  solc_ok : Bool
  fs : String → Option String
  local_path : String

/-- Observable result of one loop iteration. -/
structure StepTrace where
  compile_called : Bool
deriving DecidableEq

/-- One iteration of the `main` loop (src/main.rs, lines 326-365).  When the
local path is absent, the clone is attempted under `catch_unwind`:
`Ok(Err(_))` hits `continue` (the iteration ends, compilation skipped), while
`Ok(Ok(()))` and `Err(_)` (the caught panic, which only prints an
access-denial message) both fall through to `compile_contracts_from_repo`.  The compile result is bound to `output` and
ignored, so its `Err` cases do not end the process — but its panic does
(`none`). -/
def contest_step (e : ContestEnv) : Option StepTrace :=
  let skip :=
    if e.path_exists then false
    else
      match e.clone with
      | .cloned => false
      | .cloneErr => true
      | .panicked => false
  if skip then
    some ⟨false⟩
  else
    match compile_contracts_from_repo e.fs e.input_ok e.solc_ok
        (e.local_path ++ "/remappings.txt") with
    | none => none
    | some _ => some ⟨true⟩

/-- The `for contest in contests` loop of `main`: iterations run in order and
a panic in any iteration aborts the process (`none`), since nothing after the
`catch_unwind` block catches it. -/
def run_contests : List ContestEnv → Option (List StepTrace)
  | [] => some []
  | e :: es =>
    match contest_step e with
    | none => none
    | some t => (run_contests es).map (fun ts => t :: ts)

/-- A concrete stand-in for the RFC3339 parser, mapping the timestamp string
`T` to the instant `10`, used in concrete evaluations. -/
def parseT : String → Option Int :=
  fun s => if s = "T" then some 10 else none

/-- A concrete active public contest whose end instant (under `parseT`)
is `10`. -/
def cPub : Contest :=
  { contest0 with end_time := some "T", code_access := some "public" }

section Scratch

example : rsplitList '=' "a=b=c".toList = ["a".toList, "b".toList, "c".toList] := by decide
example : rsplitList '=' "".toList = [[]] := by decide
example : trimList "  ab ".toList = "ab".toList := by decide
example : rlines "a\nb\n".toList = ["a".toList, "b".toList] := by decide
example : rlines "".toList = [] := by decide
example : endsList ".sol".toList "a.sol".toList = true := by decide
example : parentDir "/repo/remappings.txt".toList = "/repo".toList := by decide
example : fileNameList "dir/sub/x.sol".toList = "x.sol".toList := by decide
example : strOf "ab".toList = "ab" := by decide

example : filter_keep parseT 9 cPub = some true := by decide
example : filter_keep parseT 10 cPub = some false := by decide
example : filter_keep parseT 9 { contest0 with end_time := some "bad", code_access := some "public" } = some false := by decide
example : filter_keep parseT 9 { contest0 with code_access := some "public" } = none := by decide
example : filter_keep parseT 11 { contest0 with end_time := some "T" } = some false := by decide
example : filter_keep parseT 9 { contest0 with end_time := some "T" } = none := by decide
example :
    get_active_contests parseT (fun i => 9 + i) 0 [cPub, cPub] = some [cPub] := by decide
example :
    get_active_contests_spec parseT 9 [cPub, cPub] = some [cPub, cPub] := by decide

example :
    parse_remappings "/repo/remappings.txt" "@openzeppelin/=lib/openzeppelin-contracts/" =
      [⟨"@openzeppelin/", "/repo/lib/openzeppelin-contracts/"⟩] := by decide
example : parse_remappings "/repo/remappings.txt" "justonevalue" = [] := by decide
example : parse_remappings "/repo/remappings.txt" "a=b=c" = [] := by decide
example : parse_remappings "/repo/remappings.txt" "\n\n" = [] := by decide
example :
    get_contracts_urls [⟨"a.sol", "blob", "u1"⟩, ⟨"b.txt", "blob", "u2"⟩, ⟨"sub", "tree", "u3"⟩] =
      [("u1", "a.sol")] := by decide
example : get_default_branch .failed = none := rfl
example :
    get_default_branch (.got ⟨true, some [("default_branch", .jstr "main")]⟩) =
      some (.ok "main") := rfl
example :
    get_default_branch (.got ⟨false, some [("default_branch", .jstr "main")]⟩) =
      some (.error .notFound) := rfl
example : hexEncode [0xde, 0xad, 0xbe, 0xef] = "deadbeef" := by decide
example :
    get_contracts_bytecodes
      [("F.sol", [("Foo", ⟨some ⟨some ⟨.bytecode [0xde, 0xad, 0xbe, 0xef]⟩⟩⟩)])] "F.sol" =
      some [("Foo", "deadbeef")] := by decide
example :
    get_contracts_bytecodes
      [("F.sol", [("Foo", ⟨some ⟨some ⟨.unlinked "lib"⟩⟩⟩)])] "F.sol" = none := by decide
example :
    contest_step ⟨false, .panicked, true, true, (fun _ => some ""), "./clones/r"⟩ =
      some ⟨true⟩ := by decide
example :
    contest_step ⟨false, .cloneErr, true, true, (fun _ => some ""), "./clones/r"⟩ =
      some ⟨false⟩ := by decide
example :
    contest_step ⟨false, .cloned, true, true, (fun _ => none), "./clones/r"⟩ = none := by decide
example :
    run_contests [⟨false, .cloned, true, true, (fun _ => none), "./clones/r"⟩,
      ⟨true, .cloned, true, true, (fun _ => some ""), "./clones/s"⟩] = none := by decide

end Scratch

/-- C1: for a well-formed record (its `end_time` parses to the instant `t`),
the eligibility filter keeps it exactly when `t` is strictly after `now` and
`code_access` is `public`: a past `end_time` is dropped regardless of
accessibility (the accessibility field is not even inspected), and a future
`end_time` is kept exactly when `code_access = "public"`. -/
theorem C1_eligibility_filter (parse : String → Option Int) (now t : Int)
    (c : Contest) (s : String)
    (he : c.end_time = some s) (hp : parse s = some t) :
    (¬ now < t → filter_keep parse now c = some false) ∧
    (∀ ca, c.code_access = some ca →
      ((filter_keep parse now c = some true ↔ (now < t ∧ ca = "public")) ∧
        get_active_contests parse (fun _ => now) 0 [c] =
          some (if now < t ∧ ca = "public" then [c] else []))) := by
  constructor
  · intro ht
    simp [filter_keep, is_active_and_public, he, hp, ht]
  · intro ca hca
    by_cases ht : now < t
    · constructor
      · simp [filter_keep, is_active_and_public, he, hp, hca, ht]
      · by_cases hpub : ca = "public" <;>
          simp [get_active_contests, filter_keep, is_active_and_public,
            he, hp, hca, ht, hpub]
    · constructor
      · simp [filter_keep, is_active_and_public, he, hp, hca, ht]
      · simp [get_active_contests, filter_keep, is_active_and_public,
          he, hp, hca, ht]

/-- Witness for C1 at a concrete record: `cPub` ends at instant 10 under
`parseT`, and at `now = 9` it is kept iff `9 < 10` and it is public. -/
theorem C1_eligibility_filter_witness :
    filter_keep parseT 9 cPub = some true ↔ ((9 : Int) < 10 ∧ "public" = "public") :=
  ((C1_eligibility_filter parseT 9 10 cPub "T" rfl rfl).2 "public" rfl).1

/-- C3 counterexample: a record with `end_time` absent is not classified
inactive and dropped — `is_active_and_public` panics on
`contest.end_time.as_ref().unwrap()` (result `none`), and the panic aborts
the whole filtering pass instead of recoverably excluding the record. -/
theorem C3_missing_end_time_panics :
    is_active_and_public parseT 9 { contest0 with code_access := some "public" } = none ∧
    get_active_contests parseT (fun _ => 9) 0
      [{ contest0 with code_access := some "public" }] = none ∧
    get_active_contests parseT (fun _ => 9) 0
      [{ contest0 with code_access := some "public" }] ≠ some [] := by
  refine ⟨rfl, by decide, by decide⟩

/-- C3 amended: a record whose `end_time` is present but fails to parse is
classified inactive by construction (the `ParseError` is mapped to `false` by
`unwrap_or(false)`), recoverably — the pass continues over the remaining
records; a record whose `end_time` is absent instead panics the pass. -/
theorem C3_amended_parse_failure_drops (parse : String → Option Int) (now : Int) :
    (∀ c s, c.end_time = some s → parse s = none →
      filter_keep parse now c = some false) ∧
    (∀ c s clock i cs, c.end_time = some s → parse s = none →
      get_active_contests parse clock i (c :: cs) =
        get_active_contests parse clock (i + 1) cs) ∧
    (∀ c, c.end_time = none → is_active_and_public parse now c = none) := by
  refine ⟨?_, ?_, ?_⟩
  · intro c s he hp
    simp [filter_keep, is_active_and_public, he, hp]
  · intro c s clock i cs he hp
    simp [get_active_contests, filter_keep, is_active_and_public, he, hp]
  · intro c he
    simp [is_active_and_public, he]

/-- Witness for the amended C3: a record with the unparseable timestamp
`bad` is dropped with `false`, not a panic. -/
theorem C3_amended_parse_failure_drops_witness :
    filter_keep parseT 9 { contest0 with end_time := some "bad" } = some false :=
  (C3_amended_parse_failure_drops parseT 9).1
    { contest0 with end_time := some "bad" } "bad" rfl rfl

/-- C9 counterexample: `Utc::now()` is called inside `is_active_and_public`,
once per record, not once per pass.  With two identical records ending at
instant 10 and successive clock readings 9 and 10, the code keeps only the
first record, while the single-instant description (using the first reading
for the whole pass) keeps both. -/
theorem C9_now_resampled_per_record :
    get_active_contests parseT (fun i => 9 + i) 0 [cPub, cPub] = some [cPub] ∧
    get_active_contests_spec parseT 9 [cPub, cPub] = some [cPub, cPub] ∧
    get_active_contests parseT (fun i => 9 + i) 0 [cPub, cPub] ≠
      get_active_contests_spec parseT 9 [cPub, cPub] := by
  refine ⟨by decide, by decide, by decide⟩

/-- C9 amended: the filtering pass is a pure, deterministic function of the
records and the sequence of per-record clock readings; whenever every
per-record reading is the same instant, it coincides with the pass described
by the specification, which captures a single `now` for the whole pass. -/
theorem C9_amended_constant_clock (parse : String → Option Int) (now : Int) :
    ∀ (records : List Contest) (i : Nat),
      get_active_contests parse (fun _ => now) i records =
        get_active_contests_spec parse now records := by
  intro records
  induction records with
  | nil => intro i; rfl
  | cons c cs ih =>
    intro i
    simp [get_active_contests, get_active_contests_spec, ih]

/-- C2: bytecode extraction agrees with the specification's description — for
the contracts under the given filename it returns the `(name, hex bytecode)`
pairs of those with concrete bytecode, unlinked placeholders contribute
nothing, and an empty result (also from an absent filename) is the signal
`none`, not an error; concretely, one contract `Foo` with bytecode
`0xdeadbeef` yields `[("Foo", "deadbeef")]`, and the same contract with an
unlinked placeholder yields `none`. -/
theorem C2_bytecode_extraction :
    (∀ (contracts : Contracts) (filename : String),
      get_contracts_bytecodes contracts filename =
        get_contracts_bytecodes_spec contracts filename) ∧
    get_contracts_bytecodes
      [("F.sol", [("Foo", ⟨some ⟨some ⟨.bytecode [0xde, 0xad, 0xbe, 0xef]⟩⟩⟩)])]
      "F.sol" = some [("Foo", "deadbeef")] ∧
    get_contracts_bytecodes
      [("F.sol", [("Foo", ⟨some ⟨some ⟨.unlinked "lib"⟩⟩⟩)])] "F.sol" = none := by
  refine ⟨?_, by decide, by decide⟩
  intro contracts filename
  unfold get_contracts_bytecodes get_contracts_bytecodes_spec
  cases h : lookupA contracts filename <;> simp [h]

/-- C5: every remapping produced from a remapping file comes from a line that
split into exactly two parts, and its path is the file's containing
directory, a `/` separator, and the line's right-hand side — never the
current working directory; concretely, `/repo/remappings.txt` containing
`@openzeppelin/=lib/openzeppelin-contracts/` yields the name
`@openzeppelin/` and the path `/repo/lib/openzeppelin-contracts/`. -/
theorem C5_remapping_path_resolution :
    (∀ (fp contents : String) (r : Remapping), r ∈ parse_remappings fp contents →
      ∃ line ∈ rlines contents.toList, ∃ a b,
        rsplitList '=' (trimList line) = [a, b] ∧
        r.name = strOf (trimList a) ∧
        r.path = strOf (parentDir fp.toList ++ '/' :: trimList b)) ∧
    parse_remappings "/repo/remappings.txt" "@openzeppelin/=lib/openzeppelin-contracts/" =
      [⟨"@openzeppelin/", "/repo/lib/openzeppelin-contracts/"⟩] := by
  refine ⟨?_, by decide⟩
  intro fp contents r hr
  obtain ⟨line, hline, hmap⟩ := List.mem_filterMap.mp hr
  refine ⟨line, hline, ?_⟩
  unfold remap_line at hmap
  split at hmap
  next a b heq =>
    cases hmap
    exact ⟨a, b, heq, rfl, rfl⟩
  next =>
    cases hmap

/-- Witness for C5 at the concrete file of the specification: the produced
remapping indeed traces back to an accepted two-part line resolved against
`/repo`. -/
theorem C5_remapping_path_resolution_witness :
    (⟨"@openzeppelin/", "/repo/lib/openzeppelin-contracts/"⟩ : Remapping) ∈
      parse_remappings "/repo/remappings.txt" "@openzeppelin/=lib/openzeppelin-contracts/" ∧
    ∃ line ∈ rlines "@openzeppelin/=lib/openzeppelin-contracts/".toList, ∃ a b,
      rsplitList '=' (trimList line) = [a, b] ∧
      (⟨"@openzeppelin/", "/repo/lib/openzeppelin-contracts/"⟩ : Remapping).name =
        strOf (trimList a) ∧
      (⟨"@openzeppelin/", "/repo/lib/openzeppelin-contracts/"⟩ : Remapping).path =
        strOf (parentDir "/repo/remappings.txt".toList ++ '/' :: trimList b) :=
  ⟨by decide,
    C5_remapping_path_resolution.1 "/repo/remappings.txt"
      "@openzeppelin/=lib/openzeppelin-contracts/"
      ⟨"@openzeppelin/", "/repo/lib/openzeppelin-contracts/"⟩ (by decide)⟩

/-- C6 counterexample: the resolver does not split on the first `=` — it
splits on every `=` and demands exactly two parts, so the line `a=b=c`
contributes no entry, instead of the entry with name `a` and path
`/repo/b=c` that splitting on the first `=` would produce. -/
theorem C6_multi_equals_line_dropped :
    parse_remappings "/repo/remappings.txt" "a=b=c" = [] ∧
    parse_remappings "/repo/remappings.txt" "a=b=c" ≠
      [⟨"a", "/repo/b=c"⟩] := by
  refine ⟨by decide, by decide⟩

/-- C6 amended: each line is trimmed and split on every `=`; only a line with
exactly one `=` (two parts) yields an entry, whose path is everything after
that `=` resolved against the file's directory; lines with no `=` (such as
`justonevalue`), lines with two or more `=`, and blank lines are silently
ignored, contributing no entry and raising no error. -/
theorem C6_amended_exactly_one_equals (dir line : List Char) :
    (∀ a b, rsplitList '=' (trimList line) = [a, b] →
      remap_line dir line =
        some ⟨strOf (trimList a), strOf (dir ++ '/' :: trimList b)⟩) ∧
    ((∀ a b, rsplitList '=' (trimList line) ≠ [a, b]) →
      remap_line dir line = none) ∧
    parse_remappings "/repo/remappings.txt" "justonevalue" = [] ∧
    parse_remappings "/repo/remappings.txt" "" = [] ∧
    parse_remappings "/repo/r.txt" "a=b=c\nx=y\n\n" = [⟨"x", "/repo/y"⟩] := by
  refine ⟨?_, ?_, by decide, by decide, by decide⟩
  · intro a b h
    unfold remap_line
    rw [h]
  · intro h
    unfold remap_line
    split
    next a b heq => exact absurd heq (h a b)
    next => rfl

/-- Witness for the amended C6: the single-`=` line `a=b` in `/repo` yields
the entry with name `a` and path `/repo/b`. -/
theorem C6_amended_exactly_one_equals_witness :
    remap_line "/repo".toList "a=b".toList =
      some ⟨strOf (trimList "a".toList),
        strOf ("/repo".toList ++ '/' :: trimList "b".toList)⟩ :=
  (C6_amended_exactly_one_equals "/repo".toList "a=b".toList).1
    "a".toList "b".toList (by decide)

/-- C7: tree filtering retains exactly the `blob` entries whose path ends in
`.sol`, maps each to the pair (content URL, last path segment), and keeps one
output entry per retained tree entry (filename collisions across directories
are not deduplicated — the output has exactly as many entries as the
retained list); the tree with `a.sol` (blob), `b.txt` (blob) and `sub`
(tree) yields exactly `[("u1", "a.sol")]`. -/
theorem C7_solidity_blob_selection :
    (∀ (tree : List GitHubTreeEntry) (pr : String × String),
      pr ∈ get_contracts_urls tree ↔
        ∃ e ∈ tree, e.type = "blob" ∧ endsList ".sol".toList e.path.toList = true ∧
          pr = (e.url, strOf (fileNameList e.path.toList))) ∧
    (∀ tree : List GitHubTreeEntry,
      (get_contracts_urls tree).length =
        (tree.filter
          (fun e => e.type = "blob" && endsList ".sol".toList e.path.toList)).length) ∧
    get_contracts_urls
      [⟨"a.sol", "blob", "u1"⟩, ⟨"b.txt", "blob", "u2"⟩, ⟨"sub", "tree", "u3"⟩] =
      [("u1", "a.sol")] := by
  refine ⟨?_, ?_, by decide⟩
  · intro tree pr
    simp only [get_contracts_urls, List.mem_map, List.mem_filter,
      Bool.and_eq_true, decide_eq_true_eq]
    constructor
    · rintro ⟨e, ⟨he, ht, hs⟩, rfl⟩
      exact ⟨e, he, ht, hs, rfl⟩
    · rintro ⟨e, he, ht, hs, rfl⟩
      exact ⟨e, ⟨he, ht, hs⟩, rfl⟩
  · intro tree
    simp [get_contracts_urls]

/-- Witness for C7: the pair `("u1", "a.sol")` is in the output of the
concrete tree because the blob entry `a.sol` is retained. -/
theorem C7_solidity_blob_selection_witness :
    ("u1", "a.sol") ∈ get_contracts_urls
      [⟨"a.sol", "blob", "u1"⟩, ⟨"b.txt", "blob", "u2"⟩, ⟨"sub", "tree", "u3"⟩] :=
  (C7_solidity_blob_selection.1
      [⟨"a.sol", "blob", "u1"⟩, ⟨"b.txt", "blob", "u2"⟩, ⟨"sub", "tree", "u3"⟩]
      ("u1", "a.sol")).mpr
    ⟨⟨"a.sol", "blob", "u1"⟩, by decide, by decide, by decide, by decide⟩

/-- C8 counterexample: a transport failure of the metadata request does not
produce a recoverable "not found" error — the response is `map_err`-ed to
`()` and then `.unwrap()`-ed, which panics the process (`none`). -/
theorem C8_transport_failure_panics :
    get_default_branch .failed = none ∧
    get_default_branch .failed ≠ some (.error .notFound) := by
  refine ⟨rfl, ?_⟩
  intro h
  exact Option.noConfusion h

/-- C8 amended: default-branch resolution succeeds with branch `b` iff the
request yields a success status and a JSON body whose `default_branch` field
is the string `b`; a non-success status, or a missing or non-string field,
fails with the recoverable `Default branch not found` error; a success
status whose body is not valid JSON fails with the recoverable JSON-decode
error propagated by `?`; but a transport failure of the send itself panics
the process after logging. -/
theorem C8_amended_branch_resolution :
    (∀ (s : SendResult) (b : String),
      get_default_branch s = some (.ok b) ↔
        ∃ r fields, s = .got r ∧ r.success = true ∧ r.body = some fields ∧
          lookupField fields "default_branch" = some (.jstr b)) ∧
    (∀ r : HttpResponse, r.success = false →
      get_default_branch (.got r) = some (.error .notFound)) ∧
    (∀ (r : HttpResponse) (fields : List (String × JVal)),
      r.success = true → r.body = some fields →
      (∀ b, lookupField fields "default_branch" ≠ some (.jstr b)) →
      get_default_branch (.got r) = some (.error .notFound)) ∧
    (∀ r : HttpResponse, r.success = true → r.body = none →
      get_default_branch (.got r) = some (.error .jsonDecode)) ∧
    get_default_branch .failed = none := by
  refine ⟨?_, ?_, ?_, ?_, rfl⟩
  · intro s b
    constructor
    · intro h
      cases s with
      | failed => exact Option.noConfusion h
      | got r =>
        refine ⟨r, ?_⟩
        by_cases hs : r.success = true
        · cases hb : r.body with
          | none => simp [get_default_branch, hs, hb] at h
          | some fields =>
            cases hv : lookupField fields "default_branch" with
            | none => simp [get_default_branch, hs, hb, hv] at h
            | some v =>
              cases v with
              | jstr sb =>
                simp [get_default_branch, hs, hb, hv] at h
                exact ⟨fields, rfl, hs, rfl, by rw [hv, h]⟩
              | jother => simp [get_default_branch, hs, hb, hv] at h
        · simp [get_default_branch, hs] at h
    · rintro ⟨r, fields, rfl, hs, hb, hf⟩
      simp [get_default_branch, hs, hb, hf]
  · intro r hs
    simp [get_default_branch, hs]
  · intro r fields hs hb hf
    cases hv : lookupField fields "default_branch" with
    | none => simp [get_default_branch, hs, hb, hv]
    | some v =>
      cases v with
      | jstr sb => exact absurd hv (hf sb)
      | jother => simp [get_default_branch, hs, hb, hv]
  · intro r hs hb
    simp [get_default_branch, hs, hb]

/-- Witness for the amended C8: a success response whose body maps
`default_branch` to the string `main` resolves to `main`. -/
theorem C8_amended_branch_resolution_witness :
    get_default_branch (.got ⟨true, some [("default_branch", .jstr "main")]⟩) =
      some (.ok "main") :=
  (C8_amended_branch_resolution.1
      (.got ⟨true, some [("default_branch", .jstr "main")]⟩) "main").mpr
    ⟨⟨true, some [("default_branch", .jstr "main")]⟩,
      [("default_branch", .jstr "main")], rfl, rfl, rfl, by decide⟩

/-- C4: evaluation of the orchestrator at the failing input.  A clone failure
returned as an error (`Ok(Err(_))` from `catch_unwind`) hits `continue` and
skips compilation, but a clone failure surfaced as a caught panic (`Err(_)`)
only prints the access-denial message and falls through: the process does not
crash, yet `compile_contracts_from_repo` is still called for that contest,
and the orchestrator then advances to the next contest. -/
theorem C4_caught_clone_panic_does_not_skip :
    contest_step ⟨false, .panicked, true, true, (fun _ => some ""), "./clones/r"⟩ =
      some ⟨true⟩ ∧
    contest_step ⟨false, .cloneErr, true, true, (fun _ => some ""), "./clones/r"⟩ =
      some ⟨false⟩ ∧
    run_contests
      [⟨false, .panicked, true, true, (fun _ => some ""), "./clones/r"⟩,
       ⟨false, .cloneErr, true, true, (fun _ => some ""), "./clones/s"⟩] =
      some [⟨true⟩, ⟨false⟩] := by
  refine ⟨by decide, by decide, by decide⟩

/-- C10: when the filesystem cannot read the remapping file as text,
`read_remappings_file` panics (`expect`) instead of returning an empty list
or an error value; `compile_contracts_from_repo` reaches that call whenever
the compiler-input construction succeeds, `main` has no handler around the
compile call, so one contest whose cloned repository lacks `remappings.txt`
terminates the whole run — later contests are never processed. -/
theorem C10_missing_remappings_file_fatal (fs : String → Option String)
    (p : String) (h : fs p = none) :
    read_remappings_file fs p = none ∧
    (∀ rs, read_remappings_file fs p ≠ some rs) ∧
    (∀ (e : ContestEnv) (es : List ContestEnv), e.input_ok = true →
      e.fs (e.local_path ++ "/remappings.txt") = none →
      (e.path_exists = true ∨ e.clone ≠ CloneOutcome.cloneErr) →
      contest_step e = none ∧ run_contests (e :: es) = none) := by
  refine ⟨?_, ?_, ?_⟩
  · simp [read_remappings_file, h]
  · intro rs
    simp [read_remappings_file, h]
  · intro e es hin hfs hreach
    have hstep : contest_step e = none := by
      unfold contest_step
      have hskip :
          (if e.path_exists then false
            else
              match e.clone with
              | .cloned => false
              | .cloneErr => true
              | .panicked => false) = false := by
        rcases hreach with hpe | hcl
        · rw [hpe]
          rfl
        · cases hpe : e.path_exists
          · cases hc : e.clone
            · rfl
            · exact absurd hc hcl
            · rfl
          · rfl
      rw [hskip]
      simp only [Bool.false_eq_true, if_false]
      have hcomp : compile_contracts_from_repo e.fs e.input_ok e.solc_ok
          (e.local_path ++ "/remappings.txt") = none := by
        unfold compile_contracts_from_repo
        rw [hin]
        simp only [if_true]
        rw [show read_remappings_file e.fs (e.local_path ++ "/remappings.txt") = none by
          simp [read_remappings_file, hfs]]
      rw [hcomp]
    refine ⟨hstep, ?_⟩
    unfold run_contests
    rw [hstep]

/-- Witness for C10: a run over one contest with a readable clone but no
readable `remappings.txt`, followed by a second contest, aborts instead of
skipping to the second contest. -/
theorem C10_missing_remappings_file_fatal_witness :
    run_contests
      [⟨false, .cloned, true, true, (fun _ => none), "./clones/r"⟩,
       ⟨true, .cloned, true, true, (fun _ => some ""), "./clones/s"⟩] = none :=
  ((C10_missing_remappings_file_fatal (fun _ => none) "x" rfl).2.2
    ⟨false, .cloned, true, true, (fun _ => none), "./clones/r"⟩
    [⟨true, .cloned, true, true, (fun _ => some ""), "./clones/s"⟩]
    rfl rfl (Or.inr (by decide))).2

end Code4rena
